import Mathlib

/-!
Shallow embedding of the AR trading system (arbitrage_engine.py,
recovery_system.py, mt5_connection.py) and verification of the frozen
claims about its specification.

Conventions:
* Python floats are embedded as exact rationals (`ℚ`); `numpy.std`, which
  takes a real square root, is embedded over `ℝ`.
* Python dicts keyed by symbol strings are embedded as association lists
  `List (String × α)` with `List.lookup`.
* Broker calls (`place_order`, `close_position`) are embedded by passing an
  explicit oracle describing the broker's response, and every broker
  interaction is recorded in an explicit trace so that "no compensating
  close was issued" is an observable statement.
-/

namespace AR

/-- Python's `round(x, 2)` rounds to the nearest hundredth with ties to
even; `roundHalfEven` is the corresponding integer rounding on `ℚ`. -/
def roundHalfEven (q : ℚ) : ℤ :=
  if q - ⌊q⌋ < 1/2 then ⌊q⌋
  else if 1/2 < q - ⌊q⌋ then ⌊q⌋ + 1
  else if ⌊q⌋ % 2 = 0 then ⌊q⌋ else ⌊q⌋ + 1

/-- `round(x, 2)` from the Python sources. -/
def round2 (q : ℚ) : ℚ := (roundHalfEven (q * 100) : ℚ) / 100

/-- `mt5_connection.place_order` validation of the volume argument
(`if lots <= 0 or lots > 100: return None`). An order is submitted to the
broker only if this holds. -/
def lots_ok (lots : ℚ) : Bool := decide (0 < lots) && decide (lots ≤ 100)

/-- Whether `needle` occurs as a contiguous sublist of `haystack`. -/
def listInfixCheck (needle : List Char) : List Char → Bool
  | [] => needle.isEmpty
  | c :: rest => needle.isPrefixOf (c :: rest) || listInfixCheck needle rest

/-- Pip factor used throughout the sources: 100 for yen-quoted symbols
(`'JPY' in symbol`), 10000 otherwise. -/
def containsJPY (s : String) : Bool := listInfixCheck "JPY".data s.data

def pip_factor (symbol : String) : ℚ := if containsJPY symbol then 100 else 10000

/-- One entry of `recovery_system.losing_positions`. -/
structure LosingPos where
  symbol : String
  profit : ℚ
  pips : ℚ
  open_price : ℚ
  current_price : ℚ
  ptype : ℕ
  volume : ℚ
  ticket : ℕ
deriving DecidableEq, Repr

/-! ### Emergency stop (recovery_system.check_emergency_stops, lines 509-532) -/

/-- `recovery_system` stop-loss configuration (`stop_loss` block, defaults
`emergency_close_all = 1000`, `max_drawdown_percent = 15`). -/
structure StopConfig where
  emergency_close_all : ℚ
  max_drawdown_percent : ℚ
deriving DecidableEq, Repr

def defaultStopConfig : StopConfig := ⟨1000, 15⟩

/-- `check_emergency_stops` decision, embedded from recovery_system.py
lines 509-529: `total_profit` is the sum of open-position profits; the
routine liquidates when `abs(total_profit) >= emergency_amount`, and
otherwise, when the balance is positive, when
`abs(total_profit)/balance*100 >= max_drawdown_percent`.
Returns `true` exactly when `emergency_close_all` is invoked. -/
def check_emergency_stops (cfg : StopConfig) (profits : List ℚ) (balance : ℚ) : Bool :=
  let total := profits.sum
  if cfg.emergency_close_all ≤ |total| then true
  else if 0 < balance then
    decide (cfg.max_drawdown_percent ≤ |total| / balance * 100)
  else false

/-- Modelled from the spec wording of claim C1: liquidation exactly when the
aggregate open *loss* reaches the emergency amount, or the drawdown (the
loss relative to balance) reaches the ceiling.  A non-negative aggregate
P/L carries no loss, so it meets neither condition. -/
def specLossCondition (cfg : StopConfig) (profits : List ℚ) (balance : ℚ) : Bool :=
  let total := profits.sum
  (decide (total ≤ -cfg.emergency_close_all)) ||
    (decide (0 < balance) && decide (total < 0) &&
      decide (cfg.max_drawdown_percent ≤ (-total) / balance * 100))

/-! ### Correlation test (recovery_system.are_positively_correlated, lines 495-507) -/

def positive_pairs : List (String × String) :=
  [("EURUSD", "GBPUSD"), ("USDJPY", "EURJPY"), ("USDCHF", "EURCHF")]

/-- `recovery_system.are_positively_correlated`: true when the ordered pair
or its reverse occurs in the hard-coded `positive_pairs` list. -/
def are_positively_correlated (symbol1 symbol2 : String) : Bool :=
  positive_pairs.contains (symbol1, symbol2) || positive_pairs.contains (symbol2, symbol1)

/-! ### Martingale and grid volume formulas -/

/-- Volume of a martingale escalation order
(recovery_system.execute_martingale_recovery lines 200-203):
`round(min(original_volume * multiplier**(level+1), 2.0), 2)`. -/
def martingale_volume (original_volume multiplier : ℚ) (level : ℕ) : ℚ :=
  round2 (min (original_volume * multiplier ^ (level + 1)) 2)

/-- Volume of the grid order at level `ℓ`
(recovery_system.execute_grid_recovery lines 282-285):
`round(min(base_volume * multiplier**(level-1), 1.5), 2)`. -/
def grid_volume (base_volume multiplier : ℚ) (ℓ : ℕ) : ℚ :=
  round2 (min (base_volume * multiplier ^ (ℓ - 1)) (3/2))

/-! ### Triangular arbitrage direction choice
(arbitrage_engine.calculate_direct_triangle_arbitrage lines 653-720 and
calculate_indirect_triangle_arbitrage lines 722-791) -/

/-- Bid/ask quote for one pair (the `rates[pair]` entries). -/
structure Rate where
  bid : ℚ
  ask : ℚ
deriving DecidableEq, Repr

inductive Direction where
  | forward
  | reverse
deriving DecidableEq, Repr

/-- `forward_profit_pips` of the direct triangle (line 673-676):
`(pair1.bid / pair2.ask - pair3.ask) * 10000`. -/
def direct_forward_pips (pair1 pair2 pair3 : Rate) : ℚ :=
  (pair1.bid / pair2.ask - pair3.ask) * 10000

/-- `reverse_profit_pips` of the direct triangle (line 679-682):
`(pair3.bid - pair1.ask / pair2.bid) * 10000`. -/
def direct_reverse_pips (pair1 pair2 pair3 : Rate) : ℚ :=
  (pair3.bid - pair1.ask / pair2.bid) * 10000

/-- Direction/profit choice and minimum-profit gate of
`calculate_direct_triangle_arbitrage` (lines 684-716): the forward leg plan
is taken when `abs(forward) > abs(reverse)`, otherwise the reverse plan;
the opportunity is emitted only when `abs(profit) >= min_profit_pips`. -/
def calculate_direct_triangle_arbitrage (min_profit_pips : ℚ) (pair1 pair2 pair3 : Rate) :
    Option (Direction × ℚ) :=
  let fwd := direct_forward_pips pair1 pair2 pair3
  let rev := direct_reverse_pips pair1 pair2 pair3
  let chosen : Direction × ℚ := if |rev| < |fwd| then (.forward, fwd) else (.reverse, rev)
  if min_profit_pips ≤ |chosen.2| then some chosen else none

/-- `forward_profit_pips` of the indirect triangle (lines 742-747):
`(pair1.bid * pair2.bid - pair3.ask) * pip_factor`. -/
def indirect_forward_pips (pf : ℚ) (pair1 pair2 pair3 : Rate) : ℚ :=
  (pair1.bid * pair2.bid - pair3.ask) * pf

/-- `reverse_profit_pips` of the indirect triangle (lines 750-753):
`(pair3.bid - pair1.ask * pair2.ask) * pip_factor`. -/
def indirect_reverse_pips (pf : ℚ) (pair1 pair2 pair3 : Rate) : ℚ :=
  (pair3.bid - pair1.ask * pair2.ask) * pf

/-- Direction/profit choice and profit gates of
`calculate_indirect_triangle_arbitrage` (lines 755-787); `pf` is the pip
factor of the third pair (100 when it is yen-quoted).  Emitted only when
`min_profit_pips <= abs(profit) <= max_profit_pips`. -/
def calculate_indirect_triangle_arbitrage (min_profit_pips max_profit_pips pf : ℚ)
    (pair1 pair2 pair3 : Rate) : Option (Direction × ℚ) :=
  let fwd := indirect_forward_pips pf pair1 pair2 pair3
  let rev := indirect_reverse_pips pf pair1 pair2 pair3
  let chosen : Direction × ℚ := if |rev| < |fwd| then (.forward, fwd) else (.reverse, rev)
  if min_profit_pips ≤ |chosen.2| ∧ |chosen.2| ≤ max_profit_pips then some chosen else none

/-! ### Volatility (arbitrage_engine.calculate_enhanced_volatility, lines 439-461) -/

/-- The last `n` elements of a list (Python `xs[-n:]`). -/
def lastN (n : ℕ) (xs : List ℚ) : List ℚ := xs.drop (xs.length - n)

/-- Arithmetic mean of a list of rationals (0 for the empty list). -/
def listMean (xs : List ℚ) : ℚ := xs.sum / xs.length

/-- Population variance, the square of `numpy.std` (ddof = 0). -/
def popVar (xs : List ℚ) : ℚ :=
  (xs.map (fun x => (x - listMean xs) ^ 2)).sum / xs.length

/-- `numpy.std`: square root of the population variance. -/
noncomputable def npStd (xs : List ℚ) : ℝ := Real.sqrt ((popVar xs : ℚ) : ℝ)

/-- `calculate_enhanced_volatility`, embedded from lines 439-461: returns 0
below 20 samples; otherwise the pip-scaled weighted combination
`0.7*std(last 20) + 0.3*std(last 50 or all)` of the rolling mid prices. -/
noncomputable def calculate_enhanced_volatility (symbol : String) (prices : List ℚ) : ℝ :=
  if prices.length < 20 then 0
  else
    let recent := lastN 20 prices
    let short_vol : ℝ := if 1 < recent.length then npStd recent else 0
    let medium := if 50 ≤ prices.length then lastN 50 prices else prices
    let medium_vol : ℝ := if 1 < medium.length then npStd medium else 0
    (short_vol * (7/10) + medium_vol * (3/10)) * ((pip_factor symbol : ℚ) : ℝ)

/-- Modelled from the spec wording of claim C6: the mean absolute
first-difference of the last 20 mid prices, pip-scaled; zero below 20
samples. -/
def specVolatility (symbol : String) (prices : List ℚ) : ℚ :=
  if prices.length < 20 then 0
  else
    let recent := lastN 20 prices
    listMean ((recent.zip recent.tail).map fun p => |p.2 - p.1|) * pip_factor symbol

/-- A concrete 20-sample rolling history: mid prices alternating between
1 and 1.002. -/
def altPrices : List ℚ :=
  [1, 501/500, 1, 501/500, 1, 501/500, 1, 501/500, 1, 501/500,
   1, 501/500, 1, 501/500, 1, 501/500, 1, 501/500, 1, 501/500]

/-! ### Lot sizing (arbitrage_engine.calculate_intelligent_lot_size, lines 1106-1135) -/

/-- `calculate_intelligent_lot_size`, embedded from lines 1106-1131:
base size 0.01 scaled by clamped confidence / profit / market-strength /
session multipliers, clamped to [0.01, 0.10] and rounded to 2 decimals. -/
def calculate_intelligent_lot_size (confidence profit_pips market_strength : ℚ)
    (active_sessions : ℕ) : ℚ :=
  let base_lot_size : ℚ := 1/100
  let confidence_multiplier := max (1/2) (min 2 (confidence / 50))
  let profit_multiplier := max (4/5) (min (3/2) (profit_pips / 5))
  let market_multiplier := max (7/10) (min (13/10) (market_strength / 70))
  let session_multiplier : ℚ := if 2 ≤ active_sessions then 6/5 else 1
  let lot_size := base_lot_size * confidence_multiplier * profit_multiplier *
    market_multiplier * session_multiplier
  round2 (max (1/100) (min (1/10) lot_size))

/-! ### Broker interaction trace -/

/-- One broker interaction, as issued by the recovery system and the
engine through `mt5_connection`: an order placement or a position close.
Recording every call in a trace makes "no compensating close was issued"
an observable statement of the embedding. -/
inductive BrokerCall where
  | placeOrder (symbol : String) (order_type : ℕ) (lots : ℚ) (price : ℚ)
  | closePosition (ticket : ℕ)
deriving DecidableEq, Repr

def BrokerCall.isClose : BrokerCall → Bool
  | .closePosition _ => true
  | _ => false

def BrokerCall.symbolOf : BrokerCall → Option String
  | .placeOrder s _ _ _ => some s
  | .closePosition _ => none

/-- Replace-or-insert on an association list, the embedding of Python dict
assignment `d[k] = v`. -/
def upsert {α : Type} (s : String) (v : α) : List (String × α) → List (String × α)
  | [] => [(s, v)]
  | (k, w) :: rest => if k = s then (s, v) :: rest else (k, w) :: upsert s v rest

/-! ### Martingale recovery (recovery_system lines 162-227) -/

/-- `methods.martingale` configuration (defaults `multiplier = 1.5`,
`max_levels = 3`). -/
structure MartingaleConfig where
  multiplier : ℚ
  max_levels : ℕ
deriving DecidableEq, Repr

/-- The martingale level recorded for a symbol
(`self.martingale_levels.get(symbol, 0)`). -/
def levelOf (s : String) (m : List (String × ℕ)) : ℕ := (m.lookup s).getD 0

/-- The order placed by `execute_martingale_recovery` (lines 193-221):
same direction as the losing position, volume by `martingale_volume`,
price from the current tick (`tick` maps a symbol to its (bid, ask)). -/
def martingale_call (tick : String → ℚ × ℚ) (multiplier : ℚ) (pos : LosingPos)
    (level : ℕ) : BrokerCall :=
  let price := if pos.ptype = 0 then (tick pos.symbol).2 else (tick pos.symbol).1
  .placeOrder pos.symbol pos.ptype (martingale_volume pos.volume multiplier level) price

/-- `check_martingale_recovery` (lines 162-191) over the losing-position
list: for each position at ≥ 20 pips loss whose symbol is below
`max_levels`, place an escalation order (its success decided by the broker
oracle `ok`) and on success bump the recorded level.  Returns the updated
level map and the trace of broker calls. -/
def check_martingale_recovery (cfg : MartingaleConfig) (ok : BrokerCall → Option ℕ)
    (tick : String → ℚ × ℚ) :
    List LosingPos → List (String × ℕ) → List (String × ℕ) × List BrokerCall
  | [], m => (m, [])
  | pos :: rest, m =>
    if 20 ≤ |pos.pips| then
      let current := levelOf pos.symbol m
      if current < cfg.max_levels then
        let call := martingale_call tick cfg.multiplier pos current
        match ok call with
        | some _ =>
          let r := check_martingale_recovery cfg ok tick rest (upsert pos.symbol (current + 1) m)
          (r.1, call :: r.2)
        | none =>
          let r := check_martingale_recovery cfg ok tick rest m
          (r.1, call :: r.2)
      else check_martingale_recovery cfg ok tick rest m
    else check_martingale_recovery cfg ok tick rest m

/-! ### Grid recovery (recovery_system lines 230-322) -/

/-- `methods.grid` configuration (defaults `step_pips = 15`,
`max_levels = 5`, `lot_multiplier = 1.2`). -/
structure GridConfig where
  step_pips : ℚ
  max_levels : ℕ
  lot_multiplier : ℚ
deriving DecidableEq, Repr

/-- One entry of `grid_data['levels']`. -/
structure GridLevel where
  level : ℕ
  price : ℚ
  volume : ℚ
  ticket : ℕ
deriving DecidableEq, Repr

/-- A `grid_levels[symbol]` record. -/
structure GridData where
  base_price : ℚ
  levels : List GridLevel
  direction : ℕ
deriving DecidableEq, Repr

/-- The order the grid executor places for level `ℓ`. -/
def grid_call (tick : String → ℚ × ℚ) (multiplier : ℚ) (pos : LosingPos) (ℓ : ℕ) :
    BrokerCall :=
  let price := if pos.ptype = 0 then (tick pos.symbol).2 else (tick pos.symbol).1
  .placeOrder pos.symbol pos.ptype (grid_volume pos.volume multiplier ℓ) price

/-- The sequential leg loop of `execute_grid_recovery` (lines 281-318):
place the order for each pending level in turn; a successful leg is
appended to `grid_data['levels']` and the loop continues; on the first
failed leg the function returns `False` at once, keeping the already
appended legs and issuing no further call — in particular no close. -/
def grid_exec_loop (ok : BrokerCall → Option ℕ) (tick : String → ℚ × ℚ)
    (pos : LosingPos) (multiplier : ℚ) :
    List ℕ → GridData → Bool × GridData × List BrokerCall
  | [], g => (true, g, [])
  | ℓ :: rest, g =>
    let call := grid_call tick multiplier pos ℓ
    match ok call with
    | some t =>
      let price := if pos.ptype = 0 then (tick pos.symbol).2 else (tick pos.symbol).1
      let r := grid_exec_loop ok tick pos multiplier rest
        { g with levels := g.levels ++ [⟨ℓ, price, grid_volume pos.volume multiplier ℓ, t⟩] }
      (r.1, r.2.1, call :: r.2.2)
    | none => (false, g, [call])

/-- The `grid_data['levels']` entry recorded for a successfully placed
level `ℓ` (ticket taken from the broker result). -/
def grid_fill (ok : BrokerCall → Option ℕ) (tick : String → ℚ × ℚ) (pos : LosingPos)
    (mult : ℚ) (ℓ : ℕ) : GridLevel :=
  ⟨ℓ, (if pos.ptype = 0 then (tick pos.symbol).2 else (tick pos.symbol).1),
    grid_volume pos.volume mult ℓ, (ok (grid_call tick mult pos ℓ)).getD 0⟩

/-- `execute_grid_recovery` (lines 273-322): run the leg loop over
`range(current_levels + 1, levels_needed + 1)`. -/
def execute_grid_recovery (ok : BrokerCall → Option ℕ) (tick : String → ℚ × ℚ)
    (pos : LosingPos) (g : GridData) (levels_needed : ℕ) (multiplier : ℚ) :
    Bool × GridData × List BrokerCall :=
  grid_exec_loop ok tick pos multiplier
    (List.range' (g.levels.length + 1) (levels_needed - g.levels.length)) g

/-- `check_grid_recovery` (lines 230-271) over the losing-position list:
ensure a grid record exists for the symbol, compute
`levels_needed = int(pips_loss / step_pips)`, and when
`levels_needed > current_levels and current_levels < max_levels` run the
executor, keeping whatever grid state it produced (also on partial
failure). -/
def check_grid_recovery (cfg : GridConfig) (ok : BrokerCall → Option ℕ)
    (tick : String → ℚ × ℚ) :
    List LosingPos → List (String × GridData) → List (String × GridData) × List BrokerCall
  | [], gm => (gm, [])
  | pos :: rest, gm =>
    let fresh : GridData := ⟨pos.open_price, [], pos.ptype⟩
    let gm1 := if (gm.lookup pos.symbol).isSome then gm else upsert pos.symbol fresh gm
    let g := (gm1.lookup pos.symbol).getD fresh
    let levels_needed : ℤ := ⌊|pos.pips| / cfg.step_pips⌋
    if (g.levels.length : ℤ) < levels_needed ∧ g.levels.length < cfg.max_levels then
      let e := execute_grid_recovery ok tick pos g levels_needed.toNat cfg.lot_multiplier
      let r := check_grid_recovery cfg ok tick rest (upsert pos.symbol e.2.1 gm1)
      (r.1, e.2.2 ++ r.2)
    else check_grid_recovery cfg ok tick rest gm1

/-- Number of grid levels recorded for a symbol. -/
def gridCountOf (s : String) (gm : List (String × GridData)) : ℕ :=
  (((gm.lookup s).map GridData.levels).getD []).length

/-! ### Hedge recovery (recovery_system lines 324-396) -/

/-- `methods.hedging` configuration (defaults `hedge_ratio = 1.0`,
`auto_hedge_drawdown = 100`). -/
structure HedgeConfig where
  hedge_ratio : ℚ
  auto_hedge_drawdown : ℚ
deriving DecidableEq, Repr

/-- A `hedge_positions[symbol]` record. -/
structure HedgeData where
  original_ticket : ℕ
  hedge_ticket : ℕ
  hedge_price : ℚ
  hedge_volume : ℚ
deriving DecidableEq, Repr

/-- `execute_hedge_recovery` (lines 352-396): one opposite-direction order
sized `round(original_volume * hedge_ratio, 2)`; on broker success the
hedge record to store, otherwise nothing. -/
def execute_hedge_recovery (ok : BrokerCall → Option ℕ) (tick : String → ℚ × ℚ)
    (hedge_ratio : ℚ) (pos : LosingPos) : Option HedgeData × List BrokerCall :=
  let hedge_volume := round2 (pos.volume * hedge_ratio)
  let order_type := if pos.ptype = 0 then 1 else 0
  let price := if pos.ptype = 0 then (tick pos.symbol).1 else (tick pos.symbol).2
  let call := BrokerCall.placeOrder pos.symbol order_type hedge_volume price
  match ok call with
  | some t => (some ⟨pos.ticket, t, price, hedge_volume⟩, [call])
  | none => (none, [call])

/-- `check_hedge_recovery` (lines 324-350) over the losing-position list:
for each position whose loss reaches `auto_hedge_drawdown` and whose symbol
has no active hedge (`if symbol not in self.hedge_positions`), execute the
hedge and on success record it. -/
def check_hedge_recovery (cfg : HedgeConfig) (ok : BrokerCall → Option ℕ)
    (tick : String → ℚ × ℚ) :
    List LosingPos → List (String × HedgeData) → List (String × HedgeData) × List BrokerCall
  | [], hm => (hm, [])
  | pos :: rest, hm =>
    if cfg.auto_hedge_drawdown ≤ |pos.profit| ∧ hm.lookup pos.symbol = none then
      match execute_hedge_recovery ok tick cfg.hedge_ratio pos with
      | (some hd, tr) =>
        let r := check_hedge_recovery cfg ok tick rest (upsert pos.symbol hd hm)
        (r.1, tr ++ r.2)
      | (none, tr) =>
        let r := check_hedge_recovery cfg ok tick rest hm
        (r.1, tr ++ r.2)
    else check_hedge_recovery cfg ok tick rest hm

/-! ### Emergency liquidation (recovery_system.emergency_close_all lines
534-552 and mt5_connection.close_all_positions lines 967-1000) -/

/-- An open broker position as far as liquidation is concerned. -/
structure OpenPosition where
  ticket : ℕ
  symbol : String
  profit : ℚ
deriving DecidableEq, Repr

/-- `mt5_connection.close_all_positions`: iterate over the position
snapshot, attempt `close_position(ticket)` for each (success decided by
the broker oracle `closeOk`), count successes; a failed close leaves its
position open.  Returns (remaining open positions, closed count). -/
def close_all_positions (closeOk : ℕ → Bool) :
    List OpenPosition → List OpenPosition × ℕ
  | [] => ([], 0)
  | p :: rest =>
    let r := close_all_positions closeOk rest
    if closeOk p.ticket then (r.1, r.2 + 1) else (p :: r.1, r.2)

/-- The per-instrument recovery state maps of `RecoverySystem`. -/
structure RecoveryMaps where
  martingale_levels : List (String × ℕ)
  grid_levels : List (String × GridData)
  hedge_positions : List (String × HedgeData)
  correlation_pairs : List (String × ℕ)
deriving DecidableEq, Repr

/-- `recovery_system.emergency_close_all` (lines 534-552): call
`close_all_positions`, then `.clear()` every recovery map.  Returns the
remaining open positions, the closed count, and the recovery maps after
the reset. -/
def emergency_close_all (closeOk : ℕ → Bool) (positions : List OpenPosition)
    (_maps : RecoveryMaps) : List OpenPosition × ℕ × RecoveryMaps :=
  let r := close_all_positions closeOk positions
  (r.1, r.2, ⟨[], [], [], []⟩)

/-! ### Order placement (mt5_connection.place_order lines 661-831) -/

/-- The request dictionary built by `place_order`. -/
structure OrderRequest where
  symbol : String
  volume : ℚ
  order_type : ℕ
  price : ℚ
  sl : ℚ
  tp : ℚ
  type_filling : ℕ
deriving DecidableEq, Repr

/-- The environment `place_order` consults before building a request:
connection flags, symbol availability, the current tick (bid, ask), the
symbol's filling mode, and the terminal/account probes. -/
structure PlaceEnv where
  connected : Bool
  initOk : Bool
  symbol_available : Bool
  tick : Option (ℚ × ℚ)
  filling_mode : ℕ
  terminal_connected : Bool
  account_ok : Bool
deriving DecidableEq, Repr

/-- Price resolution of `place_order` (lines 681-690): a zero price
argument is replaced by the tick's ask (buy) or bid (sell); an absent tick
aborts. -/
def resolve_price (env : PlaceEnv) (order_type : ℕ) (price : ℚ) : Option ℚ :=
  if price = 0 then
    match env.tick with
    | none => none
    | some (bid, ask) => some (if order_type = 0 then ask else bid)
  else some price

/-- The alternative-filling retry loop of `place_order` (lines 775-788):
resend the request under each remaining filling mode, succeeding only on
`TRADE_RETCODE_DONE` (10009). -/
def retry_fillings (send : OrderRequest → Option ℕ) (req : OrderRequest) :
    List ℕ → Option ℕ × List OrderRequest
  | [] => (none, [])
  | f :: rest =>
    let r := { req with type_filling := f }
    match send r with
    | some rc =>
      if rc = 10009 then (some rc, [r])
      else
        let k := retry_fillings send req rest
        (k.1, r :: k.2)
    | none =>
      let k := retry_fillings send req rest
      (k.1, r :: k.2)

/-- `mt5_connection.place_order` (lines 661-831), embedded with an explicit
send oracle (`send req = none` models `order_send` returning `None`,
`some rc` a result with retcode `rc`).  Returns the final outcome (the
retcode of a completed order) together with the list of requests actually
sent to the broker; every validation failure returns `none` with an empty
send list. -/
def place_order (env : PlaceEnv) (send : OrderRequest → Option ℕ) (symbol : String)
    (order_type : ℕ) (lots price sl tp : ℚ) : Option ℕ × List OrderRequest :=
  if !env.connected then (none, [])
  else if !env.initOk then (none, [])
  else if !env.symbol_available then (none, [])
  else
    match resolve_price env order_type price with
    | none => (none, [])
    | some pr =>
      if !(lots_ok lots) then (none, [])
      else if pr ≤ 0 then (none, [])
      else if !env.terminal_connected then (none, [])
      else if !env.account_ok then (none, [])
      else
        let req : OrderRequest := ⟨symbol, lots, order_type, pr, sl, tp, env.filling_mode⟩
        match send req with
        | none => (none, [req])
        | some rc =>
          if rc = 10009 then (some rc, [req])
          else if rc = 10030 then
            let k := retry_fillings send req ([1, 0, 2].filter (· ≠ env.filling_mode))
            (k.1, req :: k.2)
          else (none, [req])

/-! ### Intelligent trade execution
(arbitrage_engine.execute_intelligent_trade lines 1014-1080 and
select_primary_trade lines 1082-1104) -/

/-- One leg of a triangular opportunity's `trades` list. -/
structure TradeLeg where
  pair : String
  buySide : Bool
deriving DecidableEq, Repr

/-- `select_primary_trade`: the first leg whose pair has market data,
falling back to the first leg. -/
def select_primary_trade (market_syms : List String) :
    List TradeLeg → Option TradeLeg
  | [] => none
  | t0 :: rest => some (((t0 :: rest).find? fun t => market_syms.contains t.pair).getD t0)

/-- `execute_intelligent_trade`: reduce the multi-leg opportunity to a
single primary leg, size it with `calculate_intelligent_lot_size`, and
place exactly one order for it; no other leg is placed and nothing is
closed. -/
def execute_intelligent_trade (ok : BrokerCall → Option ℕ)
    (tick : String → Option (ℚ × ℚ)) (market_syms : List String)
    (trades : List TradeLeg) (confidence profit_pips market_strength : ℚ)
    (active_sessions : ℕ) : Bool × List BrokerCall :=
  match select_primary_trade market_syms trades with
  | none => (false, [])
  | some t =>
    match tick t.pair with
    | none => (false, [])
    | some (bid, ask) =>
      let lot := calculate_intelligent_lot_size confidence profit_pips market_strength
        active_sessions
      let order_type := if t.buySide then 0 else 1
      let price := if t.buySide then ask else bid
      let call := BrokerCall.placeOrder t.pair order_type lot price
      match ok call with
      | some _ => (true, [call])
      | none => (false, [call])

/-! ## Helper lemmas -/

theorem lookup_upsert_self {α : Type} (s : String) (v : α) (l : List (String × α)) :
    (upsert s v l).lookup s = some v := by
  induction l with
  | nil => simp [upsert, List.lookup]
  | cons p rest ih =>
    obtain ⟨k, w⟩ := p
    by_cases h : k = s
    · subst h
      simp [upsert, List.lookup]
    · have hb : (s == k) = false := beq_eq_false_iff_ne.mpr (Ne.symm h)
      simp [upsert, h, List.lookup, hb, ih]

theorem lookup_upsert_ne {α : Type} (s s' : String) (v : α) (l : List (String × α))
    (h : s' ≠ s) : (upsert s v l).lookup s' = l.lookup s' := by
  have hb : (s' == s) = false := beq_eq_false_iff_ne.mpr h
  induction l with
  | nil => simp [upsert, List.lookup, hb]
  | cons p rest ih =>
    obtain ⟨k, w⟩ := p
    by_cases hk : k = s
    · subst hk
      simp [upsert, List.lookup, hb]
    · simp only [upsert, if_neg hk, List.lookup]
      cases hbk : s' == k <;> simp [hbk, ih]

theorem roundHalfEven_le {q : ℚ} {z : ℤ} (h : q ≤ (z : ℚ)) : roundHalfEven q ≤ z := by
  have hfz : ⌊q⌋ ≤ z := by
    have h2 := Int.floor_le_floor h
    rwa [Int.floor_intCast] at h2
  have hfq : (⌊q⌋ : ℚ) ≤ q := Int.floor_le q
  have key : 1/2 ≤ q - (⌊q⌋ : ℚ) → ⌊q⌋ + 1 ≤ z := by
    intro hhalf
    rcases lt_or_eq_of_le hfz with hlt | heq
    · omega
    · exfalso
      rw [heq] at hhalf
      linarith
  unfold roundHalfEven
  split_ifs with h1 h2 h3
  · exact hfz
  · exact key (le_of_lt h2)
  · exact hfz
  · exact key (le_of_not_lt h1)

theorem le_roundHalfEven {q : ℚ} {z : ℤ} (h : (z : ℚ) ≤ q) : z ≤ roundHalfEven q := by
  have hzf : z ≤ ⌊q⌋ := Int.le_floor.mpr h
  unfold roundHalfEven
  split_ifs <;> omega

theorem round2_le {q : ℚ} {z : ℤ} (h : q ≤ (z : ℚ) / 100) : round2 q ≤ (z : ℚ) / 100 := by
  have h' : q * 100 ≤ (z : ℚ) := by linarith
  have hr := roundHalfEven_le h'
  unfold round2
  have : (roundHalfEven (q * 100) : ℚ) ≤ (z : ℚ) := by exact_mod_cast hr
  linarith

theorem le_round2 {q : ℚ} {z : ℤ} (h : (z : ℚ) / 100 ≤ q) : (z : ℚ) / 100 ≤ round2 q := by
  have h' : (z : ℚ) ≤ q * 100 := by linarith
  have hr := le_roundHalfEven h'
  unfold round2
  have : (z : ℚ) ≤ (roundHalfEven (q * 100) : ℚ) := by exact_mod_cast hr
  linarith

/-- A strictly positive `round2` result is at least 0.01: every rounded
volume that passes the broker's positivity validation is at least one
hundredth of a lot. -/
theorem round2_pos_min {q : ℚ} (h : 0 < round2 q) : 1/100 ≤ round2 q := by
  unfold round2 at h ⊢
  have hk : 0 < roundHalfEven (q * 100) := by
    by_contra hk
    push_neg at hk
    have : (roundHalfEven (q * 100) : ℚ) ≤ 0 := by exact_mod_cast hk
    nlinarith
  have h1 : (1 : ℤ) ≤ roundHalfEven (q * 100) := hk
  have : (1 : ℚ) ≤ (roundHalfEven (q * 100) : ℚ) := by exact_mod_cast h1
  linarith

theorem roundHalfEven_intCast (z : ℤ) : roundHalfEven (z : ℚ) = z := by
  unfold roundHalfEven
  rw [Int.floor_intCast]
  norm_num

/-- `round2` fixes every rational that is already a whole number of
hundredths. -/
theorem round2_eq_self {q : ℚ} {z : ℤ} (h : q * 100 = (z : ℚ)) : round2 q = q := by
  unfold round2
  rw [h, roundHalfEven_intCast, ← h]
  field_simp

/-! ## Claim theorems -/

/-- C10: the positive-correlation test is symmetric — for every pair of
symbols, `are_positively_correlated s1 s2` returns the same boolean as
`are_positively_correlated s2 s1`. -/
theorem c10_positive_correlation_symm (s1 s2 : String) :
    are_positively_correlated s1 s2 = are_positively_correlated s2 s1 := by
  simp [are_positively_correlated, Bool.or_comm]

/-- C1 (corrected): `check_emergency_stops` liquidates exactly when the
*magnitude* of the aggregate open P/L reaches the emergency amount, or
the balance is positive and that magnitude is at least
`max_drawdown_percent` percent of the balance — so a large aggregate
profit also triggers liquidation, not only a loss. -/
theorem c1_emergency_trigger_iff (cfg : StopConfig) (profits : List ℚ) (balance : ℚ) :
    check_emergency_stops cfg profits balance = true ↔
      (cfg.emergency_close_all ≤ |profits.sum| ∨
        (0 < balance ∧ cfg.max_drawdown_percent ≤ |profits.sum| / balance * 100)) := by
  unfold check_emergency_stops
  by_cases h1 : cfg.emergency_close_all ≤ |profits.sum|
  · simp [h1]
  · by_cases h2 : 0 < balance
    · simp [h1, h2]
    · simp [h1, h2]

/-- C1 counterexample: with the default thresholds, an account holding a
single position at +$1000 aggregate *profit* (balance $100000, so 1%
magnitude) triggers emergency liquidation, although the portfolio-loss
condition of the claim does not hold: the code tests `abs(total_profit)`,
not the loss. -/
theorem c1_counterexample :
    check_emergency_stops defaultStopConfig [1000] 100000 = true ∧
      specLossCondition defaultStopConfig [1000] 100000 = false := by
  constructor
  · norm_num [check_emergency_stops, defaultStopConfig]
  · norm_num [specLossCondition, defaultStopConfig]

/-- C9: `place_order` returns `None` without sending anything to the
broker whenever the requested lot size is not strictly positive, exceeds
100, or the resolved execution price is not strictly positive. -/
theorem c9_place_order_rejects_invalid (env : PlaceEnv) (send : OrderRequest → Option ℕ)
    (symbol : String) (order_type : ℕ) (lots price sl tp : ℚ)
    (h : lots ≤ 0 ∨ 100 < lots ∨
      ∀ pr, resolve_price env order_type price = some pr → pr ≤ 0) :
    place_order env send symbol order_type lots price sl tp = (none, []) := by
  unfold place_order
  cases hc : env.connected
  · rfl
  cases hi : env.initOk
  · rfl
  cases hs : env.symbol_available
  · rfl
  simp only [Bool.not_true, Bool.false_eq_true, if_false]
  cases hr : resolve_price env order_type price with
  | none => rfl
  | some pr =>
    rcases h with h | h | h
    · have hlf : lots_ok lots = false := by
        have : ¬ (0 < lots) := not_lt.mpr h
        simp [lots_ok, this]
      simp [hlf]
    · have hlf : lots_ok lots = false := by
        have : ¬ (lots ≤ 100) := not_le.mpr h
        simp [lots_ok, this]
      simp [hlf]
    · have hpr : pr ≤ 0 := h pr hr
      by_cases hl : lots_ok lots
      · simp [hl, hpr]
      · simp [hl]

/-- Witness for C9 at a concrete invalid input (lot size −1). -/
theorem c9_witness :
    place_order ⟨true, true, true, some (1, 2), 0, true, true⟩ (fun _ => some 10009)
      "EURUSD" 0 (-1) 1 0 0 = (none, []) :=
  c9_place_order_rejects_invalid _ _ _ _ _ _ _ _ (Or.inl (by norm_num))

/-- C5 (corrected): emergency liquidation always resets every recovery
map to empty, and the positions remaining open afterwards are exactly
those whose broker-side close failed — so zero positions remain exactly
when the broker accepts every close, not unconditionally. -/
theorem c5_emergency_close_all_spec (closeOk : ℕ → Bool)
    (positions : List OpenPosition) (maps : RecoveryMaps) :
    emergency_close_all closeOk positions maps =
      (positions.filter (fun p => !(closeOk p.ticket)),
        (positions.filter (fun p => closeOk p.ticket)).length,
        ⟨[], [], [], []⟩) := by
  unfold emergency_close_all
  suffices h : close_all_positions closeOk positions =
      (positions.filter (fun p => !(closeOk p.ticket)),
        (positions.filter (fun p => closeOk p.ticket)).length) by
    rw [h]
  induction positions with
  | nil => rfl
  | cons p rest ih =>
    simp only [close_all_positions, ih, List.filter]
    cases h : closeOk p.ticket <;> simp

/-- C5 counterexample: a scenario that genuinely triggers the emergency
stop (aggregate P/L −$1000 at the default threshold) in which the broker
rejects the close of the only open position: liquidation completes with
that position still open, contradicting "zero open positions". -/
theorem c5_counterexample :
    check_emergency_stops defaultStopConfig [-1000] 5000 = true ∧
      (emergency_close_all (fun _ => false) [⟨7, "EURUSD", -1000⟩]
        ⟨[("EURUSD", 1)], [], [], []⟩).1 = [⟨7, "EURUSD", -1000⟩] ∧
      (emergency_close_all (fun _ => false) [⟨7, "EURUSD", -1000⟩]
        ⟨[("EURUSD", 1)], [], [], []⟩).2.2 = ⟨[], [], [], []⟩ := by
  refine ⟨by norm_num [check_emergency_stops, defaultStopConfig], rfl, rfl⟩

/-- C8: every order volume the system submits is within lot-size bounds:
entry trades sized by `calculate_intelligent_lot_size` always lie in
[0.01, 0.10]; martingale escalation volumes that pass the broker's volume
validation lie in [0.01, 2.0]; grid escalation volumes that pass it lie in
[0.01, 1.5]. -/
theorem c8_volumes_within_bounds
    (confidence profit_pips market_strength : ℚ) (active_sessions : ℕ)
    (orig mmult : ℚ) (lvl : ℕ) (gbase gmult : ℚ) (glvl : ℕ)
    (hm : lots_ok (martingale_volume orig mmult lvl) = true)
    (hg : lots_ok (grid_volume gbase gmult glvl) = true) :
    (1/100 ≤ calculate_intelligent_lot_size confidence profit_pips market_strength
        active_sessions ∧
      calculate_intelligent_lot_size confidence profit_pips market_strength
        active_sessions ≤ 1/10) ∧
    (1/100 ≤ martingale_volume orig mmult lvl ∧ martingale_volume orig mmult lvl ≤ 2) ∧
    (1/100 ≤ grid_volume gbase gmult glvl ∧ grid_volume gbase gmult glvl ≤ 3/2) := by
  have hm' : 0 < martingale_volume orig mmult lvl := by
    simp [lots_ok] at hm
    exact hm.1
  have hg' : 0 < grid_volume gbase gmult glvl := by
    simp [lots_ok] at hg
    exact hg.1
  refine ⟨⟨?_, ?_⟩, ⟨round2_pos_min hm', ?_⟩, ⟨round2_pos_min hg', ?_⟩⟩
  · unfold calculate_intelligent_lot_size
    have h1 : ((1 : ℤ) : ℚ) / 100 ≤
        max (1/100) (min (1/10) ((1/100) *
          (max (1/2) (min 2 (confidence / 50))) *
          (max (4/5) (min (3/2) (profit_pips / 5))) *
          (max (7/10) (min (13/10) (market_strength / 70))) *
          (if 2 ≤ active_sessions then (6/5 : ℚ) else 1))) := by
      push_cast
      exact le_max_left _ _
    have := le_round2 h1
    push_cast at this
    linarith
  · unfold calculate_intelligent_lot_size
    have h1 : max (1/100) (min (1/10) ((1/100) *
          (max (1/2) (min 2 (confidence / 50))) *
          (max (4/5) (min (3/2) (profit_pips / 5))) *
          (max (7/10) (min (13/10) (market_strength / 70))) *
          (if 2 ≤ active_sessions then (6/5 : ℚ) else 1))) ≤ ((10 : ℤ) : ℚ) / 100 := by
      push_cast
      refine max_le (by norm_num) ?_
      exact le_trans (min_le_left _ _) (by norm_num)
    have := round2_le h1
    push_cast at this
    linarith
  · unfold martingale_volume
    have h1 : min (orig * mmult ^ (lvl + 1)) 2 ≤ ((200 : ℤ) : ℚ) / 100 := by
      push_cast
      exact le_trans (min_le_right _ _) (by norm_num)
    have := round2_le h1
    push_cast at this
    linarith
  · unfold grid_volume
    have h1 : min (gbase * gmult ^ (glvl - 1)) (3/2) ≤ ((150 : ℤ) : ℚ) / 100 := by
      push_cast
      exact le_trans (min_le_right _ _) (by norm_num)
    have := round2_le h1
    push_cast at this
    linarith

/-- Witness for C8 at concrete inputs (martingale volume 0.5 lots, grid
volume 0.25 lots, both accepted by the validation). -/
theorem c8_witness :
    lots_ok (martingale_volume (1/2) 1 1) = true ∧
      lots_ok (grid_volume (1/4) 1 3) = true ∧
      (1/100 ≤ calculate_intelligent_lot_size 80 5 70 2 ∧
        calculate_intelligent_lot_size 80 5 70 2 ≤ 1/10) ∧
      (1/100 ≤ martingale_volume (1/2) 1 1 ∧ martingale_volume (1/2) 1 1 ≤ 2) ∧
      (1/100 ≤ grid_volume (1/4) 1 3 ∧ grid_volume (1/4) 1 3 ≤ 3/2) := by
  have hmv : martingale_volume (1/2) 1 1 = 1/2 := by
    have h1 : min ((1/2 : ℚ) * 1 ^ (1 + 1)) 2 = 1/2 := by norm_num
    rw [martingale_volume, h1, round2_eq_self (z := 50) (by norm_num)]
  have hgv : grid_volume (1/4) 1 3 = 1/4 := by
    have h1 : min ((1/4 : ℚ) * 1 ^ (3 - 1)) (3/2) = 1/4 := by norm_num
    rw [grid_volume, h1, round2_eq_self (z := 25) (by norm_num)]
  have hm : lots_ok (martingale_volume (1/2) 1 1) = true := by
    rw [hmv]
    simp [lots_ok]
    norm_num
  have hg : lots_ok (grid_volume (1/4) 1 3) = true := by
    rw [hgv]
    simp [lots_ok]
    norm_num
  have main := c8_volumes_within_bounds 80 5 70 2 (1/2) 1 1 (1/4) 1 3 hm hg
  exact ⟨hm, hg, main.1, main.2.1, main.2.2⟩

/-- C4 (corrected): for every emitted triangle plan, direct or indirect,
the forward direction is chosen exactly when the forward absolute pip
divergence is *strictly* larger than the reverse one — so when the two
absolute divergences are equal the reverse direction is chosen, not
forward. -/
theorem c4_direction_choice
    (minP : ℚ) (p1 p2 p3 : Rate) (dir : Direction) (pr : ℚ)
    (minP2 maxP2 pf : ℚ) (q1 q2 q3 : Rate) (dir2 : Direction) (pr2 : ℚ)
    (h1 : calculate_direct_triangle_arbitrage minP p1 p2 p3 = some (dir, pr))
    (h2 : calculate_indirect_triangle_arbitrage minP2 maxP2 pf q1 q2 q3 = some (dir2, pr2)) :
    (dir = Direction.forward ↔
      |direct_reverse_pips p1 p2 p3| < |direct_forward_pips p1 p2 p3|) ∧
    (dir2 = Direction.forward ↔
      |indirect_reverse_pips pf q1 q2 q3| < |indirect_forward_pips pf q1 q2 q3|) := by
  constructor
  · unfold calculate_direct_triangle_arbitrage at h1
    by_cases hc : |direct_reverse_pips p1 p2 p3| < |direct_forward_pips p1 p2 p3|
    · simp only [if_pos hc] at h1
      split_ifs at h1
      obtain ⟨hd, -⟩ := Prod.mk.injEq .. ▸ Option.some.inj h1
      simp [← hd, hc]
    · simp only [if_neg hc] at h1
      split_ifs at h1
      obtain ⟨hd, -⟩ := Prod.mk.injEq .. ▸ Option.some.inj h1
      simp only [← hd]
      constructor
      · intro hcontra
        exact absurd hcontra (by simp)
      · intro hlt
        exact absurd hlt hc
  · unfold calculate_indirect_triangle_arbitrage at h2
    by_cases hc : |indirect_reverse_pips pf q1 q2 q3| < |indirect_forward_pips pf q1 q2 q3|
    · simp only [if_pos hc] at h2
      split_ifs at h2
      obtain ⟨hd, -⟩ := Prod.mk.injEq .. ▸ Option.some.inj h2
      simp [← hd, hc]
    · simp only [if_neg hc] at h2
      split_ifs at h2
      obtain ⟨hd, -⟩ := Prod.mk.injEq .. ▸ Option.some.inj h2
      simp only [← hd]
      constructor
      · intro hcontra
        exact absurd hcontra (by simp)
      · intro hlt
        exact absurd hlt hc

/-- Witness for C4 at concrete quotes where the forward divergence
strictly dominates in both triangle flavours. -/
theorem c4_direction_choice_witness :
    (Direction.forward = Direction.forward ↔
      |direct_reverse_pips ⟨1, 1⟩ ⟨2, 2⟩ ⟨4999/10000, 4997/10000⟩| <
        |direct_forward_pips ⟨1, 1⟩ ⟨2, 2⟩ ⟨4999/10000, 4997/10000⟩|) ∧
    (Direction.forward = Direction.forward ↔
      |indirect_reverse_pips 10000 ⟨1, 1⟩ ⟨1, 1⟩ ⟨9999/10000, 9997/10000⟩| <
        |indirect_forward_pips 10000 ⟨1, 1⟩ ⟨1, 1⟩ ⟨9999/10000, 9997/10000⟩|) :=
  c4_direction_choice 2 ⟨1, 1⟩ ⟨2, 2⟩ ⟨4999/10000, 4997/10000⟩ Direction.forward 3
    2 50 10000 ⟨1, 1⟩ ⟨1, 1⟩ ⟨9999/10000, 9997/10000⟩ Direction.forward 3
    (by norm_num [calculate_direct_triangle_arbitrage, direct_forward_pips,
      direct_reverse_pips])
    (by norm_num [calculate_indirect_triangle_arbitrage, indirect_forward_pips,
      indirect_reverse_pips])

/-- C4 counterexample: concrete quotes at which the forward and reverse
absolute divergences are exactly equal (10 pips each) — the claim says the
tie resolves to forward, but the emitted plan is the reverse direction. -/
theorem c4_counterexample :
    |direct_forward_pips ⟨1, 1⟩ ⟨2, 2⟩ ⟨499/1000, 501/1000⟩| =
      |direct_reverse_pips ⟨1, 1⟩ ⟨2, 2⟩ ⟨499/1000, 501/1000⟩| ∧
    calculate_direct_triangle_arbitrage 2 ⟨1, 1⟩ ⟨2, 2⟩ ⟨499/1000, 501/1000⟩ =
      some (Direction.reverse, -10) := by
  constructor
  · norm_num [direct_forward_pips, direct_reverse_pips]
  · norm_num [calculate_direct_triangle_arbitrage, direct_forward_pips,
      direct_reverse_pips]

/-- C7: while a hedge is recorded as active for an instrument, a recovery
cycle places no further hedge order for that instrument and leaves its
hedge record untouched — a new hedge can only appear after the record has
been cleared. -/
theorem c7_hedge_not_reopened
    (cfg : HedgeConfig) (ok : BrokerCall → Option ℕ) (tick : String → ℚ × ℚ)
    (ps : List LosingPos) (hm : List (String × HedgeData)) (s : String)
    (h : (hm.lookup s).isSome = true) :
    ((check_hedge_recovery cfg ok tick ps hm).1.lookup s = hm.lookup s) ∧
      ((check_hedge_recovery cfg ok tick ps hm).2.filter
        (fun c => decide (c.symbolOf = some s)) = []) := by
  revert h
  induction ps generalizing hm with
  | nil =>
    intro h
    simp [check_hedge_recovery]
  | cons pos rest ih =>
    intro h
    unfold check_hedge_recovery
    by_cases hcond : cfg.auto_hedge_drawdown ≤ |pos.profit| ∧ hm.lookup pos.symbol = none
    · have hne : pos.symbol ≠ s := by
        intro he
        rw [← he] at h
        rw [hcond.2] at h
        simp at h
      rw [if_pos hcond]
      unfold execute_hedge_recovery
      cases hok : ok (BrokerCall.placeOrder pos.symbol (if pos.ptype = 0 then 1 else 0)
          (round2 (pos.volume * cfg.hedge_ratio))
          (if pos.ptype = 0 then (tick pos.symbol).1 else (tick pos.symbol).2)) with
      | none =>
        simp only [hok]
        have hrec := ih hm h
        refine ⟨hrec.1, ?_⟩
        rw [List.filter_append, hrec.2, List.append_nil]
        simp [BrokerCall.symbolOf, hne]
      | some t =>
        simp only [hok]
        have hup : ((upsert pos.symbol
            ⟨pos.ticket, t, (if pos.ptype = 0 then (tick pos.symbol).1
              else (tick pos.symbol).2), round2 (pos.volume * cfg.hedge_ratio)⟩ hm).lookup
            s).isSome = true := by
          rw [lookup_upsert_ne pos.symbol s _ hm (Ne.symm hne)]
          exact h
        have hrec := ih _ hup
        refine ⟨?_, ?_⟩
        · rw [hrec.1, lookup_upsert_ne pos.symbol s _ hm (Ne.symm hne)]
        · rw [List.filter_append, hrec.2, List.append_nil]
          simp [BrokerCall.symbolOf, hne]
    · rw [if_neg hcond]
      exact ih hm h

/-- Witness for C7: a cycle over a losing EURUSD position at $150 loss
while a EURUSD hedge is already recorded places no EURUSD order and keeps
the record. -/
theorem c7_hedge_not_reopened_witness :
    ((check_hedge_recovery ⟨1, 100⟩ (fun _ => some 1) (fun _ => (1, 1))
        [⟨"EURUSD", -150, -30, 1, 1, 0, 1/10, 5⟩]
        [("EURUSD", ⟨1, 2, 1, 1/10⟩)]).1.lookup "EURUSD" =
      ([("EURUSD", (⟨1, 2, 1, 1/10⟩ : HedgeData))] ).lookup "EURUSD") ∧
      ((check_hedge_recovery ⟨1, 100⟩ (fun _ => some 1) (fun _ => (1, 1))
        [⟨"EURUSD", -150, -30, 1, 1, 0, 1/10, 5⟩]
        [("EURUSD", ⟨1, 2, 1, 1/10⟩)]).2.filter
          (fun c => decide (c.symbolOf = some "EURUSD")) = []) :=
  c7_hedge_not_reopened ⟨1, 100⟩ (fun _ => some 1) (fun _ => (1, 1))
    [⟨"EURUSD", -150, -30, 1, 1, 0, 1/10, 5⟩]
    [("EURUSD", ⟨1, 2, 1, 1/10⟩)] "EURUSD" (by simp [List.lookup])

theorem levelOf_upsert_self (s : String) (v : ℕ) (m : List (String × ℕ)) :
    levelOf s (upsert s v m) = v := by
  unfold levelOf
  rw [lookup_upsert_self]
  rfl

theorem levelOf_upsert_ne (s s' : String) (v : ℕ) (m : List (String × ℕ))
    (h : s' ≠ s) : levelOf s' (upsert s v m) = levelOf s' m := by
  unfold levelOf
  rw [lookup_upsert_ne s s' v m h]

theorem gridCountOf_upsert_ne (s s' : String) (v : GridData)
    (gm : List (String × GridData)) (h : s' ≠ s) :
    gridCountOf s' (upsert s v gm) = gridCountOf s' gm := by
  unfold gridCountOf
  rw [lookup_upsert_ne s s' v gm h]

/-- Every broker call issued by the grid leg loop is an order on the
position's own symbol. -/
theorem grid_exec_loop_symbols (ok : BrokerCall → Option ℕ) (tick : String → ℚ × ℚ)
    (pos : LosingPos) (mult : ℚ) :
    ∀ (legs : List ℕ) (g : GridData),
      ∀ c ∈ (grid_exec_loop ok tick pos mult legs g).2.2, c.symbolOf = some pos.symbol := by
  intro legs
  induction legs with
  | nil =>
    intro g c hc
    simp [grid_exec_loop] at hc
  | cons ℓ rest ih =>
    intro g c hc
    unfold grid_exec_loop at hc
    cases hok : ok (grid_call tick mult pos ℓ) with
    | some t =>
      simp only [hok] at hc
      rcases List.mem_cons.mp hc with hc | hc
      · subst hc
        simp [grid_call, BrokerCall.symbolOf]
      · exact ih _ c hc
    | none =>
      simp only [hok, List.mem_singleton] at hc
      subst hc
      simp [grid_call, BrokerCall.symbolOf]

/-- At or above the martingale cap for a symbol, a recovery cycle leaves
that symbol's level unchanged and places no order for it. -/
theorem martingale_at_cap (cfg : MartingaleConfig) (ok : BrokerCall → Option ℕ)
    (tick : String → ℚ × ℚ) (s : String) :
    ∀ (ps : List LosingPos) (m : List (String × ℕ)),
      cfg.max_levels ≤ levelOf s m →
      levelOf s (check_martingale_recovery cfg ok tick ps m).1 = levelOf s m ∧
        (check_martingale_recovery cfg ok tick ps m).2.filter
          (fun c => decide (c.symbolOf = some s)) = [] := by
  intro ps
  induction ps with
  | nil =>
    intro m hcap
    simp [check_martingale_recovery]
  | cons pos rest ih =>
    intro m hcap
    unfold check_martingale_recovery
    by_cases hpips : 20 ≤ |pos.pips|
    · rw [if_pos hpips]
      by_cases hsym : pos.symbol = s
      · have hlt : ¬ levelOf pos.symbol m < cfg.max_levels := by
          rw [hsym]
          omega
        rw [if_neg hlt]
        exact ih m hcap
      · by_cases hlev : levelOf pos.symbol m < cfg.max_levels
        · rw [if_pos hlev]
          have hfilter : ∀ (tr : List BrokerCall),
              (martingale_call tick cfg.multiplier pos (levelOf pos.symbol m) :: tr).filter
                (fun c => decide (c.symbolOf = some s)) =
              tr.filter (fun c => decide (c.symbolOf = some s)) := by
            intro tr
            simp [martingale_call, BrokerCall.symbolOf, hsym]
          cases hok : ok (martingale_call tick cfg.multiplier pos (levelOf pos.symbol m)) with
          | some t =>
            simp only [hok]
            have hcap' : cfg.max_levels ≤
                levelOf s (upsert pos.symbol (levelOf pos.symbol m + 1) m) := by
              rw [levelOf_upsert_ne pos.symbol s _ m fun he => hsym he.symm]
              exact hcap
            have hrec := ih _ hcap'
            refine ⟨?_, ?_⟩
            · rw [hrec.1, levelOf_upsert_ne pos.symbol s _ m fun he => hsym he.symm]
            · rw [hfilter, hrec.2]
          | none =>
            simp only [hok]
            have hrec := ih m hcap
            exact ⟨hrec.1, by rw [hfilter, hrec.2]⟩
        · rw [if_neg hlev]
          exact ih m hcap
    · rw [if_neg hpips]
      exact ih m hcap

/-- After a martingale recovery cycle, every symbol's recorded level is
bounded by the larger of its previous level and the configured cap: a
level at most the cap can never escalate beyond it. -/
theorem martingale_level_bound (cfg : MartingaleConfig) (ok : BrokerCall → Option ℕ)
    (tick : String → ℚ × ℚ) :
    ∀ (ps : List LosingPos) (m : List (String × ℕ)) (s' : String),
      levelOf s' (check_martingale_recovery cfg ok tick ps m).1 ≤
        max (levelOf s' m) cfg.max_levels := by
  intro ps
  induction ps with
  | nil =>
    intro m s'
    simp [check_martingale_recovery, le_max_left]
  | cons pos rest ih =>
    intro m s'
    unfold check_martingale_recovery
    by_cases hpips : 20 ≤ |pos.pips|
    · rw [if_pos hpips]
      by_cases hlev : levelOf pos.symbol m < cfg.max_levels
      · rw [if_pos hlev]
        cases hok : ok (martingale_call tick cfg.multiplier pos (levelOf pos.symbol m)) with
        | some t =>
          simp only [hok]
          refine le_trans (ih _ s') ?_
          by_cases hs : s' = pos.symbol
          · subst hs
            rw [levelOf_upsert_self]
            have h1 : levelOf pos.symbol m + 1 ≤ cfg.max_levels := hlev
            exact max_le (le_trans h1 (le_max_right _ _)) (le_max_right _ _)
          · rw [levelOf_upsert_ne pos.symbol s' _ m hs]
        | none =>
          simp only [hok]
          exact ih m s'
      · rw [if_neg hlev]
        exact ih m s'
    · rw [if_neg hpips]
      exact ih m s'

/-- At or above the grid cap for a symbol, a recovery cycle starts no new
escalation batch for it: the recorded level count is unchanged and no
order for the symbol is placed. -/
theorem grid_at_cap (cfg : GridConfig) (ok : BrokerCall → Option ℕ)
    (tick : String → ℚ × ℚ) (s : String) :
    ∀ (ps : List LosingPos) (gm : List (String × GridData)),
      cfg.max_levels ≤ gridCountOf s gm →
      gridCountOf s (check_grid_recovery cfg ok tick ps gm).1 = gridCountOf s gm ∧
        (check_grid_recovery cfg ok tick ps gm).2.filter
          (fun c => decide (c.symbolOf = some s)) = [] := by
  intro ps
  induction ps with
  | nil =>
    intro gm hcap
    simp [check_grid_recovery]
  | cons pos rest ih =>
    intro gm hcap
    unfold check_grid_recovery
    by_cases hsym : pos.symbol = s
    · subst hsym
      cases hlk : (gm.lookup pos.symbol).isSome with
      | true =>
        simp only [hlk, if_true]
        obtain ⟨g0, hg0⟩ := Option.isSome_iff_exists.mp hlk
        have hcount : ((gm.lookup pos.symbol).getD
            ⟨pos.open_price, [], pos.ptype⟩).levels.length = gridCountOf pos.symbol gm := by
          rw [hg0, gridCountOf, hg0]
          rfl
        have hnot : ¬ (((((gm.lookup pos.symbol).getD
            ⟨pos.open_price, [], pos.ptype⟩).levels.length : ℤ) <
              ⌊|pos.pips| / cfg.step_pips⌋) ∧
            ((gm.lookup pos.symbol).getD
              ⟨pos.open_price, [], pos.ptype⟩).levels.length < cfg.max_levels) := by
          rintro ⟨-, h2⟩
          rw [hcount] at h2
          omega
        rw [if_neg hnot]
        exact ih gm hcap
      | false =>
        simp only [hlk, Bool.false_eq_true, if_false]
        have hlk' : gm.lookup pos.symbol = none := by
          cases h : gm.lookup pos.symbol
          · rfl
          · rw [h] at hlk
            simp at hlk
        have hcount0 : gridCountOf pos.symbol gm = 0 := by
          rw [gridCountOf, hlk']
          rfl
        have hcapz : cfg.max_levels = 0 := by omega
        have hup : (upsert pos.symbol
            (⟨pos.open_price, [], pos.ptype⟩ : GridData) gm).lookup pos.symbol =
            some ⟨pos.open_price, [], pos.ptype⟩ := lookup_upsert_self _ _ _
        have hnot : ¬ (((((upsert pos.symbol (⟨pos.open_price, [], pos.ptype⟩ : GridData)
              gm).lookup pos.symbol).getD
            ⟨pos.open_price, [], pos.ptype⟩).levels.length : ℤ) <
              ⌊|pos.pips| / cfg.step_pips⌋ ∧
            (((upsert pos.symbol (⟨pos.open_price, [], pos.ptype⟩ : GridData)
              gm).lookup pos.symbol).getD
              ⟨pos.open_price, [], pos.ptype⟩).levels.length < cfg.max_levels) := by
          rintro ⟨-, h2⟩
          rw [hup] at h2
          simp only [Option.getD_some] at h2
          omega
        rw [if_neg hnot]
        have hcap' : cfg.max_levels ≤ gridCountOf pos.symbol
            (upsert pos.symbol (⟨pos.open_price, [], pos.ptype⟩ : GridData) gm) := by
          rw [gridCountOf, hup]
          simp [hcapz]
        have hrec := ih _ hcap'
        refine ⟨?_, hrec.2⟩
        rw [hrec.1, gridCountOf, hup, hcount0]
        rfl
    · have hnes : s ≠ pos.symbol := fun he => hsym he.symm
      have hexec_filter : ∀ (g : GridData) (n : ℕ),
          ((execute_grid_recovery ok tick pos g n cfg.lot_multiplier).2.2).filter
            (fun c => decide (c.symbolOf = some s)) = [] := by
        intro g n
        apply List.filter_eq_nil_iff.mpr
        intro c hc
        have := grid_exec_loop_symbols ok tick pos cfg.lot_multiplier _ g c hc
        simp [this, hsym]
      cases hlk : (gm.lookup pos.symbol).isSome with
      | true =>
        simp only [hlk, if_true]
        by_cases hcond : ((((gm.lookup pos.symbol).getD
            ⟨pos.open_price, [], pos.ptype⟩).levels.length : ℤ) <
              ⌊|pos.pips| / cfg.step_pips⌋) ∧
            ((gm.lookup pos.symbol).getD
              ⟨pos.open_price, [], pos.ptype⟩).levels.length < cfg.max_levels
        · rw [if_pos hcond]
          have hcap' : cfg.max_levels ≤ gridCountOf s (upsert pos.symbol
              (execute_grid_recovery ok tick pos
                ((gm.lookup pos.symbol).getD ⟨pos.open_price, [], pos.ptype⟩)
                (⌊|pos.pips| / cfg.step_pips⌋).toNat cfg.lot_multiplier).2.1 gm) := by
            rw [gridCountOf, lookup_upsert_ne pos.symbol s _ gm hnes]
            exact hcap
          have hrec := ih _ hcap'
          refine ⟨?_, ?_⟩
          · rw [hrec.1, gridCountOf, lookup_upsert_ne pos.symbol s _ gm hnes]
            rfl
          · rw [List.filter_append, hrec.2, List.append_nil]
            exact hexec_filter _ _
        · rw [if_neg hcond]
          exact ih gm hcap
      | false =>
        simp only [hlk, Bool.false_eq_true, if_false]
        have hup : (upsert pos.symbol
            (⟨pos.open_price, [], pos.ptype⟩ : GridData) gm).lookup pos.symbol =
            some ⟨pos.open_price, [], pos.ptype⟩ := lookup_upsert_self _ _ _
        have hcount1 : gridCountOf s (upsert pos.symbol
            (⟨pos.open_price, [], pos.ptype⟩ : GridData) gm) = gridCountOf s gm := by
          rw [gridCountOf, lookup_upsert_ne pos.symbol s _ gm hnes]
          rfl
        by_cases hcond : (((((upsert pos.symbol (⟨pos.open_price, [], pos.ptype⟩ : GridData)
              gm).lookup pos.symbol).getD
            ⟨pos.open_price, [], pos.ptype⟩).levels.length : ℤ) <
              ⌊|pos.pips| / cfg.step_pips⌋) ∧
            (((upsert pos.symbol (⟨pos.open_price, [], pos.ptype⟩ : GridData)
              gm).lookup pos.symbol).getD
              ⟨pos.open_price, [], pos.ptype⟩).levels.length < cfg.max_levels
        · rw [if_pos hcond]
          have hcap' : cfg.max_levels ≤ gridCountOf s (upsert pos.symbol
              (execute_grid_recovery ok tick pos
                (((upsert pos.symbol (⟨pos.open_price, [], pos.ptype⟩ : GridData)
                  gm).lookup pos.symbol).getD ⟨pos.open_price, [], pos.ptype⟩)
                (⌊|pos.pips| / cfg.step_pips⌋).toNat cfg.lot_multiplier).2.1
              (upsert pos.symbol (⟨pos.open_price, [], pos.ptype⟩ : GridData) gm)) := by
            rw [gridCountOf, lookup_upsert_ne pos.symbol s _ _ hnes, ← gridCountOf,
              hcount1]
            exact hcap
          have hrec := ih _ hcap'
          refine ⟨?_, ?_⟩
          · rw [hrec.1, gridCountOf, lookup_upsert_ne pos.symbol s _ _ hnes, ← gridCountOf,
              hcount1]
          · rw [List.filter_append, hrec.2, List.append_nil]
            exact hexec_filter _ _
        · rw [if_neg hcond]
          have hrec := ih _ (hcount1 ▸ hcap)
          exact ⟨by rw [hrec.1, hcount1], hrec.2⟩

/-- C3 (corrected): the martingale level for every instrument stays
bounded by the larger of its previous value and the configured cap, and at
the cap a cycle changes nothing and places no order for that instrument;
the grid method starts no new escalation batch for an instrument once its
recorded level count has reached the cap — but a single grid batch may
record levels beyond the cap (see the counterexample), so "the recorded
recovery level never exceeds the configured maximum" holds for martingale
only. -/
theorem c3_recovery_level_cap
    (cfg : MartingaleConfig) (gcfg : GridConfig) (ok : BrokerCall → Option ℕ)
    (tick : String → ℚ × ℚ) (ps : List LosingPos)
    (m : List (String × ℕ)) (gm : List (String × GridData)) (s : String)
    (hm : cfg.max_levels ≤ levelOf s m)
    (hg : gcfg.max_levels ≤ gridCountOf s gm) :
    (∀ s2, levelOf s2 (check_martingale_recovery cfg ok tick ps m).1 ≤
      max (levelOf s2 m) cfg.max_levels) ∧
    (levelOf s (check_martingale_recovery cfg ok tick ps m).1 = levelOf s m ∧
      (check_martingale_recovery cfg ok tick ps m).2.filter
        (fun c => decide (c.symbolOf = some s)) = []) ∧
    (gridCountOf s (check_grid_recovery gcfg ok tick ps gm).1 = gridCountOf s gm ∧
      (check_grid_recovery gcfg ok tick ps gm).2.filter
        (fun c => decide (c.symbolOf = some s)) = []) :=
  ⟨fun s2 => martingale_level_bound cfg ok tick ps m s2,
    martingale_at_cap cfg ok tick s ps m hm,
    grid_at_cap gcfg ok tick s ps gm hg⟩

/-- Witness for C3: one cycle over a 45-pip losing EURUSD position with the
martingale level already at its cap 3 and five grid levels already
recorded at cap 5. -/
theorem c3_recovery_level_cap_witness :
    (∀ s2, levelOf s2 (check_martingale_recovery ⟨3/2, 3⟩ (fun _ => some 9)
        (fun _ => (1, 1)) [⟨"EURUSD", -300, -45, 11/10, 1, 0, 1/4, 3⟩]
        [("EURUSD", 3)]).1 ≤ max (levelOf s2 [("EURUSD", 3)]) 3) ∧
    (levelOf "EURUSD" (check_martingale_recovery ⟨3/2, 3⟩ (fun _ => some 9)
        (fun _ => (1, 1)) [⟨"EURUSD", -300, -45, 11/10, 1, 0, 1/4, 3⟩]
        [("EURUSD", 3)]).1 = levelOf "EURUSD" [("EURUSD", 3)] ∧
      (check_martingale_recovery ⟨3/2, 3⟩ (fun _ => some 9)
        (fun _ => (1, 1)) [⟨"EURUSD", -300, -45, 11/10, 1, 0, 1/4, 3⟩]
        [("EURUSD", 3)]).2.filter
          (fun c => decide (c.symbolOf = some "EURUSD")) = []) ∧
    (gridCountOf "EURUSD" (check_grid_recovery ⟨15, 5, 1⟩ (fun _ => some 9)
        (fun _ => (1, 1)) [⟨"EURUSD", -300, -45, 11/10, 1, 0, 1/4, 3⟩]
        [("EURUSD", ⟨11/10, [⟨1, 1, 1/4, 1⟩, ⟨2, 1, 1/4, 2⟩, ⟨3, 1, 1/4, 3⟩,
          ⟨4, 1, 1/4, 4⟩, ⟨5, 1, 1/4, 5⟩], 0⟩)]).1 =
      gridCountOf "EURUSD" [("EURUSD", ⟨11/10, [⟨1, 1, 1/4, 1⟩, ⟨2, 1, 1/4, 2⟩,
        ⟨3, 1, 1/4, 3⟩, ⟨4, 1, 1/4, 4⟩, ⟨5, 1, 1/4, 5⟩], 0⟩)] ∧
      (check_grid_recovery ⟨15, 5, 1⟩ (fun _ => some 9)
        (fun _ => (1, 1)) [⟨"EURUSD", -300, -45, 11/10, 1, 0, 1/4, 3⟩]
        [("EURUSD", ⟨11/10, [⟨1, 1, 1/4, 1⟩, ⟨2, 1, 1/4, 2⟩, ⟨3, 1, 1/4, 3⟩,
          ⟨4, 1, 1/4, 4⟩, ⟨5, 1, 1/4, 5⟩], 0⟩)]).2.filter
          (fun c => decide (c.symbolOf = some "EURUSD")) = []) :=
  c3_recovery_level_cap ⟨3/2, 3⟩ ⟨15, 5, 1⟩ (fun _ => some 9) (fun _ => (1, 1))
    [⟨"EURUSD", -300, -45, 11/10, 1, 0, 1/4, 3⟩] [("EURUSD", 3)]
    [("EURUSD", ⟨11/10, [⟨1, 1, 1/4, 1⟩, ⟨2, 1, 1/4, 2⟩, ⟨3, 1, 1/4, 3⟩,
      ⟨4, 1, 1/4, 4⟩, ⟨5, 1, 1/4, 5⟩], 0⟩)] "EURUSD"
    (by simp [levelOf, List.lookup]) (by simp [gridCountOf, List.lookup])

/-- C3 counterexample: a single 90-pip losing EURUSD position with grid
config step 15 / cap 5 / multiplier 1 starting from an empty grid state:
`levels_needed = int(90/15) = 6 > 0 = current_levels < 5`, so one batch
places levels 1..6 and records six grid levels — strictly above the
configured maximum of 5. -/
theorem c3_counterexample :
    gridCountOf "EURUSD"
      (check_grid_recovery ⟨15, 5, 1⟩ (fun _ => some 9) (fun _ => (1, 1))
        [⟨"EURUSD", -300, -90, 11/10, 1, 0, 1/4, 3⟩] []).1 = 6 := by
  have hfloor : ⌊|(-90 : ℚ)|/15⌋ = (6 : ℤ) := by
    have h6 : |(-90 : ℚ)|/15 = ((6 : ℤ) : ℚ) := by norm_num
    rw [h6, Int.floor_intCast]
  have hrange : List.range' (0 + 1) ((6 : ℤ).toNat - 0) = [1, 2, 3, 4, 5, 6] := rfl
  have hrange2 : List.range' 1 ((6 : ℤ).toNat) = [1, 2, 3, 4, 5, 6] := rfl
  have hrange3 : List.range' 1 6 = [1, 2, 3, 4, 5, 6] := rfl
  norm_num [check_grid_recovery, execute_grid_recovery, grid_exec_loop, grid_call,
    gridCountOf, upsert, List.lookup, hfloor, hrange, hrange2, hrange3]

/-- C2 (corrected): the sequential grid leg loop reports failure exactly
when some pending leg fails, stops at the first failed leg, records
exactly the successfully placed prefix of legs — which stay open, as the
trace contains no close call at all — and the engine's "multi-leg"
execution path in fact places at most one order (the primary leg) and
closes nothing. -/
theorem c2_no_rollback :
    (∀ (ok : BrokerCall → Option ℕ) (tick : String → ℚ × ℚ) (pos : LosingPos)
      (mult : ℚ) (legs : List ℕ) (g : GridData),
      (grid_exec_loop ok tick pos mult legs g).1 =
          legs.all (fun ℓ => (ok (grid_call tick mult pos ℓ)).isSome) ∧
        (grid_exec_loop ok tick pos mult legs g).2.1.levels =
          g.levels ++ (legs.takeWhile
            (fun ℓ => (ok (grid_call tick mult pos ℓ)).isSome)).map
              (grid_fill ok tick pos mult) ∧
        (grid_exec_loop ok tick pos mult legs g).2.2.filter BrokerCall.isClose = []) ∧
    (∀ (ok : BrokerCall → Option ℕ) (tick : String → Option (ℚ × ℚ))
      (market_syms : List String) (trades : List TradeLeg)
      (confidence profit_pips market_strength : ℚ) (active_sessions : ℕ),
      (execute_intelligent_trade ok tick market_syms trades confidence profit_pips
          market_strength active_sessions).2.length ≤ 1 ∧
        (execute_intelligent_trade ok tick market_syms trades confidence profit_pips
          market_strength active_sessions).2.filter BrokerCall.isClose = []) := by
  constructor
  · intro ok tick pos mult legs
    induction legs with
    | nil =>
      intro g
      simp [grid_exec_loop]
    | cons ℓ rest ih =>
      intro g
      unfold grid_exec_loop
      cases hok : ok (grid_call tick mult pos ℓ) with
      | some t =>
        simp only [hok]
        obtain ⟨ih1, ih2, ih3⟩ := ih
          { g with levels := g.levels ++ [⟨ℓ, (if pos.ptype = 0 then (tick pos.symbol).2
              else (tick pos.symbol).1), grid_volume pos.volume mult ℓ, t⟩] }
        refine ⟨?_, ?_, ?_⟩
        · rw [ih1]
          simp [hok]
        · rw [ih2]
          simp only [List.takeWhile_cons, hok, Option.isSome_some, List.map_cons]
          rw [List.append_assoc]
          simp [grid_fill, hok]
        · simp [List.filter, BrokerCall.isClose, grid_call, ih3]
      | none =>
        simp only [hok]
        refine ⟨?_, ?_, ?_⟩
        · simp [hok]
        · simp [List.takeWhile_cons, hok]
        · simp [List.filter, BrokerCall.isClose, grid_call]
  · intro ok tick market_syms trades confidence profit_pips market_strength active_sessions
    unfold execute_intelligent_trade
    cases hsel : select_primary_trade market_syms trades with
    | none => simp
    | some t =>
      simp only
      cases htick : tick t.pair with
      | none => simp
      | some ba =>
        obtain ⟨bid, ask⟩ := ba
        simp only
        cases hok : ok (BrokerCall.placeOrder t.pair (if t.buySide then 0 else 1)
            (calculate_intelligent_lot_size confidence profit_pips market_strength
              active_sessions) (if t.buySide then ask else bid)) with
        | some u => simp [List.filter, BrokerCall.isClose]
        | none => simp [List.filter, BrokerCall.isClose]

/-- C2 counterexample: a 3-leg grid batch (levels 1..3, base volume 0.25,
multiplier 2) against a broker that rejects the 0.5-lot second leg: the
attempt reports failure, leg 1 remains recorded (and open), exactly two
orders were sent, and no compensating close call was ever issued — the
claim's rollback does not exist. -/
theorem c2_counterexample :
    (grid_exec_loop
        (fun c => match c with
          | .placeOrder _ _ lots _ => if lots = 1/2 then none else some 9
          | .closePosition _ => none)
        (fun _ => (1, 1)) ⟨"EURUSD", -200, -45, 11/10, 1, 0, 1/4, 77⟩ 2
        [1, 2, 3] ⟨11/10, [], 0⟩).1 = false ∧
      (grid_exec_loop
        (fun c => match c with
          | .placeOrder _ _ lots _ => if lots = 1/2 then none else some 9
          | .closePosition _ => none)
        (fun _ => (1, 1)) ⟨"EURUSD", -200, -45, 11/10, 1, 0, 1/4, 77⟩ 2
        [1, 2, 3] ⟨11/10, [], 0⟩).2.1.levels.map GridLevel.level = [1] ∧
      (grid_exec_loop
        (fun c => match c with
          | .placeOrder _ _ lots _ => if lots = 1/2 then none else some 9
          | .closePosition _ => none)
        (fun _ => (1, 1)) ⟨"EURUSD", -200, -45, 11/10, 1, 0, 1/4, 77⟩ 2
        [1, 2, 3] ⟨11/10, [], 0⟩).2.2.length = 2 ∧
      (grid_exec_loop
        (fun c => match c with
          | .placeOrder _ _ lots _ => if lots = 1/2 then none else some 9
          | .closePosition _ => none)
        (fun _ => (1, 1)) ⟨"EURUSD", -200, -45, 11/10, 1, 0, 1/4, 77⟩ 2
        [1, 2, 3] ⟨11/10, [], 0⟩).2.2.filter BrokerCall.isClose = [] := by
  have hv1 : grid_volume (1/4) 2 1 = 1/4 := by
    have h1 : min ((1/4 : ℚ) * 2 ^ (1 - 1)) (3/2) = 1/4 := by norm_num
    rw [grid_volume, h1, round2_eq_self (z := 25) (by norm_num)]
  have hv2 : grid_volume (1/4) 2 2 = 1/2 := by
    have h1 : min ((1/4 : ℚ) * 2 ^ (2 - 1)) (3/2) = 1/2 := by norm_num
    rw [grid_volume, h1, round2_eq_self (z := 50) (by norm_num)]
  norm_num [grid_exec_loop, grid_call, hv1, hv2, BrokerCall.isClose]

/-- C6 (corrected): the volatility the system derives is zero until 20
samples exist, and from 20 samples on it equals the pip-scaled weighted
combination `0.7·σ(last 20) + 0.3·σ(last 50 or all)` of *population
standard deviations* of the rolling mid prices — not the mean absolute
first-difference of the claim (see the counterexample). -/
theorem c6_volatility_characterization (symbol : String) (prices : List ℚ) :
    calculate_enhanced_volatility symbol prices =
      if prices.length < 20 then 0
      else (npStd (lastN 20 prices) * (7/10) +
        npStd (if 50 ≤ prices.length then lastN 50 prices else prices) * (3/10)) *
          ((pip_factor symbol : ℚ) : ℝ) := by
  simp only [calculate_enhanced_volatility]
  by_cases h : prices.length < 20
  · simp [h]
  · rw [if_neg h, if_neg h]
    push_neg at h
    have hl20 : (lastN 20 prices).length = 20 := by
      unfold lastN
      rw [List.length_drop]
      omega
    rw [if_pos (by omega : 1 < (lastN 20 prices).length)]
    by_cases h50 : 50 ≤ prices.length
    · rw [if_pos h50]
      have hl50 : (lastN 50 prices).length = 50 := by
        unfold lastN
        rw [List.length_drop]
        omega
      rw [if_pos (by omega : 1 < (lastN 50 prices).length)]
    · rw [if_neg h50]
      rw [if_pos (by omega : 1 < prices.length)]

/-- C6 counterexample: on the alternating 20-sample history the code's
volatility is 10 pips (both standard deviations are 0.001), while the mean
absolute first-difference of the claim is 0.002, i.e. 20 pips — the two
formulas disagree. -/
theorem c6_counterexample :
    calculate_enhanced_volatility "EURUSD" altPrices = 10 ∧
      specVolatility "EURUSD" altPrices = 20 ∧
      calculate_enhanced_volatility "EURUSD" altPrices ≠
        ((specVolatility "EURUSD" altPrices : ℚ) : ℝ) := by
  have hlen : altPrices.length = 20 := by simp [altPrices]
  have hlast : lastN 20 altPrices = altPrices := by
    unfold lastN
    rw [hlen]
    simp
  have hpop : popVar altPrices = 1/1000000 := by
    norm_num [popVar, listMean, altPrices]
  have hstd : npStd altPrices = 1/1000 := by
    unfold npStd
    rw [hpop]
    have hc : (((1/1000000 : ℚ)) : ℝ) = (1/1000 : ℝ) ^ 2 := by
      norm_num
    rw [hc, Real.sqrt_sq (by norm_num : (0:ℝ) ≤ 1/1000)]
  have hpip : pip_factor "EURUSD" = 10000 := by
    have : containsJPY "EURUSD" = false := by decide
    simp [pip_factor, this]
  have hcode : calculate_enhanced_volatility "EURUSD" altPrices = 10 := by
    simp only [calculate_enhanced_volatility, hlast, hlen]
    rw [if_neg (by omega : ¬ (20:ℕ) < 20), if_neg (by omega : ¬ (50:ℕ) ≤ 20),
      if_pos (by omega : (1:ℕ) < 20), hstd, hpip]
    norm_num [hlen]
  have habs : |(1/500 : ℚ)| = 1/500 := abs_of_pos (by norm_num)
  have hspec : specVolatility "EURUSD" altPrices = 20 := by
    simp only [specVolatility, hlast, hlen, hpip]
    rw [if_neg (by omega : ¬ (20:ℕ) < 20)]
    norm_num [listMean, altPrices, habs]
  refine ⟨hcode, hspec, ?_⟩
  rw [hcode, hspec]
  norm_num

end AR
